import Mathlib

/-!
Shallow embedding of `torch/_dynamo/variables/dicts.py`: the symbolic
collection model (hashability classifier, hash-key wrapper, symbolic
mapping, symbolic set, schema-backed records, sys.modules view), together
with theorems settling the specification claims about it.

Machine-level conventions of the embedding:
* Python values that can appear as compile-time literals are `PyConst`.
* A `VariableTracker` is `VT`; identity of fake tensors, builtin callables,
  enum members and method wrappers is modelled by a `Nat` tag (Python
  compares these by object identity or by a value that is opaque here).
* Raising a Python exception is modelled by `Except Err`.
* Hash equality of two underlying values is modelled as structural equality
  up to Python's guaranteed identifications: `bool` is a subclass of `int`,
  so `True == 1`, `False == 0` and their hashes agree (`pycEq`).  Accidental
  hash collisions between otherwise unequal values are not modelled.
-/

/-- Python exception kinds observable from the modelled code. -/
inductive Err where
  /-- Python `NameError` (reference to an undefined name). -/
  | nameError
  /-- Python `KeyError` (the spec's `KeyNotFound`). -/
  | keyError
  /-- Python `IndexError`. -/
  | indexError
  /-- Python `AssertionError` (programming-contract violation). -/
  | assertFail
  /-- `unimplemented(...)` / fallback to an unsupported path
  (the spec's `UnsupportedMethod` / `UnsupportedSetElement`). -/
  | unsupported
  /-- Python `AttributeError` (failed `getattr`). -/
  | attributeError
  /-- `as_python_constant` / `example_value` retrieval failed on a
  value that has no compile-time constant. -/
  | notAConstant
deriving DecidableEq, Repr

/-- Compile-time-known Python literal values. -/
inductive PyConst where
  | int (n : Int)
  | str (s : String)
  | bool (b : Bool)
  | none
deriving DecidableEq, Repr

/-- Python `==` (and, equivalently here, hash equality) on literal
constants: `bool` is a subclass of `int`, so `True == 1` and
`False == 0`, and `hash(True) == hash(1)`, `hash(False) == hash(0)`;
otherwise equality is by value, and values of different types are
unequal (their hashes collide only accidentally, which is not
modelled). -/
def pycEq : PyConst → PyConst → Bool
  | .int m, .int n => m == n
  | .bool a, .bool b => a == b
  | .bool a, .int n => (if a then (1 : Int) else 0) == n
  | .int m, .bool b => m == (if b then (1 : Int) else 0)
  | .str s, .str t => s == t
  | .none, .none => true
  | _, _ => false

/-- Abstract values (`VariableTracker` subclasses) as far as the claims
need them.  `tensor` is `TensorVariable` with the optional resolved
example value (the fake tensor, compared by object identity, modelled by
its `Nat` tag); `tuple` is `TupleVariable`; `builtin` is
`BuiltinVariable`; `symnode` is `SymNodeVariable` (carrying the constant
it specializes to); `const` is `ConstantVariable`; `enum` is
`EnumVariable` (enum class tag, member tag); `methodWrapper` is
`MethodWrapperVariable` (its extracted constant, opaque, compared by
value); `module` is a module value built by `VariableBuilder`; `other`
covers every remaining `VariableTracker` kind. -/
inductive VT where
  | tensor (fake : Option Nat)
  | tuple (items : List VT)
  | builtin (fn : Nat)
  | symnode (c : PyConst)
  | const (c : PyConst)
  | enum (cls mem : Nat)
  | methodWrapper (mw : Nat)
  | module (m : Nat)
  | other

mutual

/-- `is_hashable` (dicts.py:45-64): the abstract hashability classifier. -/
def is_hashable : VT → Bool
  | .tensor fake => fake.isSome
  | .tuple xs => is_hashableList xs
  | .builtin _ => true
  | .symnode _ => true
  | .const _ => true
  | .enum _ _ => true
  | .methodWrapper _ => false
  | .module _ => false
  | .other => false

/-- `all(is_hashable(e) for e in x.items)`. -/
def is_hashableList : List VT → Bool
  | [] => true
  | x :: xs => is_hashable x && is_hashableList xs

end

/-- Underlying values of hash-key wrappers
(`_HashableTracker.underlying_value`, dicts.py:81-90): a fake tensor
identity, a tuple of underlying values, or an extracted Python constant. -/
inductive Under where
  | fake (n : Nat)
  | tup (xs : List Under)
  | pyc (c : PyConst)
  | builtinFn (n : Nat)
  | enumMem (cls mem : Nat)
  | mwU (n : Nat)

/-- Modelled from the spec: `specialize_symnode` (torch/_dynamo/utils.py,
not under src/).  A symbolic-number abstract value used as a key is
specialized to its constant-literal value before wrapping (spec §3: the
wrapper's underlying value is the abstract value's extracted literal). -/
def specialize_symnode : VT → VT
  | .symnode c => .const c
  | v => v

mutual

/-- `underlying_value` (dicts.py:81-90): the fake tensor for a
`TensorVariable` (`meta["example_value"]`, `none` models the `KeyError`
when it is missing), the recursive tuple for a `TupleVariable`, otherwise
`as_python_constant()` (`none` models the raise for non-constants). -/
def underlyingVT : VT → Option Under
  | .tensor (some f) => some (.fake f)
  | .tensor Option.none => Option.none
  | .tuple xs => (underlyingList xs).map .tup
  | .builtin n => some (.builtinFn n)
  | .symnode _ => Option.none
  | .const c => some (.pyc c)
  | .enum c m => some (.enumMem c m)
  | .methodWrapper n => some (.mwU n)
  | .module _ => Option.none
  | .other => Option.none

/-- Pointwise `underlying_value` over a tuple's items: dicts.py:87 wraps
each element in `Hashable(e)`, which applies `specialize_symnode` to the
element before reading its underlying value — so a symbolic-number
element contributes the constant it specializes to (that case is inlined
here to keep the recursion structural). -/
def underlyingList : List VT → Option (List Under)
  | [] => some []
  | .symnode c :: xs => do
    let us ← underlyingList xs
    some (.pyc c :: us)
  | x :: xs => do
    let u ← underlyingVT x
    let us ← underlyingList xs
    some (u :: us)

end

mutual

/-- Python hash equality of underlying values, used to model the
hash-bucket probe: structural up to the guaranteed bool/int
identification of `pycEq` (tuple hashes are derived from element
hashes, so the identification lifts through tuples). -/
def underEq : Under → Under → Bool
  | .fake m, .fake n => m == n
  | .tup xs, .tup ys => underListEq xs ys
  | .pyc a, .pyc b => pycEq a b
  | .builtinFn m, .builtinFn n => m == n
  | .enumMem c m, .enumMem d n => c == d && m == n
  | .mwU m, .mwU n => m == n
  | _, _ => false

/-- Pointwise `underEq` on lists. -/
def underListEq : List Under → List Under → Bool
  | [], [] => true
  | x :: xs, y :: ys => underEq x y && underListEq xs ys
  | _, _ => false

end

/-- Python type tags of underlying values, for `type(a) != type(b)`
in `_HashableTracker._eq_impl` (dicts.py:98). -/
def utype : Under → Nat
  | .fake _ => 0
  | .tup _ => 1
  | .pyc (.int _) => 2
  | .pyc (.str _) => 3
  | .pyc (.bool _) => 4
  | .pyc .none => 5
  | .builtinFn _ => 6
  | .mwU _ => 7
  | .enumMem cls _ => 8 + cls

/-- `_HashableTracker._eq_impl` (dicts.py:95-105).  The tuple branch of the
source reads `all(_eq_impl(u, v) for u, v in zip(a, b))`: `_eq_impl` is a
bare name inside the static method body, which Python resolves neither in
the enclosing class scope nor in module globals, so evaluating the
generator raises `NameError`.  The generator is only evaluated when the
lengths are equal and nonzero (`len(a) == len(b) and all(...)` short
circuits on unequal lengths, and `all` of an empty generator never calls
the body). -/
def eq_impl (a b : Under) : Except Err Bool :=
  if utype a ≠ utype b then .ok false
  else
    match a, b with
    | .tup xs, .tup ys =>
      if xs.length = ys.length then
        if xs.length = 0 then .ok true else .error .nameError
      else .ok false
    | .fake m, .fake n => .ok (m == n)
    | x, y => .ok (underEq x y)

/-- `_HashableTracker` (dicts.py:68-111): the hash-key wrapper around an
abstract value.  Values of this structure are only built through
`mkHashable`. -/
structure HT where
  vt : VT

/-- `_HashableTracker.__init__` (dicts.py:75-79): specialize symbolic
numbers, then `assert is_hashable(vt)`. -/
def mkHashable (v : VT) : Except Err HT :=
  let v := specialize_symnode v
  if is_hashable v then .ok ⟨v⟩ else .error .assertFail

/-- `_HashableTracker.__eq__` (dicts.py:107-111): compare the two
underlying values with `_eq_impl`.  A failing `underlying_value`
retrieval (missing example value / non-constant) raises. -/
def htEq (a b : HT) : Except Err Bool :=
  match underlyingVT a.vt, underlyingVT b.vt with
  | some ua, some ub => eq_impl ua ub
  | _, _ => .error .notAConstant

/-- One probe of Python's dict lookup against a stored key: hashes are
compared first (`hash(wrapper) = hash(underlying_value)`; modelled as
structural equality of the underlying values), and only on a hash match
is `_HashableTracker.__eq__` evaluated. -/
def dictKeyMatch (stored probe : HT) : Except Err Bool :=
  match underlyingVT stored.vt, underlyingVT probe.vt with
  | some a, some b => if underEq a b then eq_impl a b else .ok false
  | _, _ => .error .notAConstant

/-- Python dict lookup `self.items[key]` / `key in self.items` over the
insertion-ordered entries. -/
def findEntry : List (HT × VT) → HT → Except Err (Option VT)
  | [], _ => .ok Option.none
  | (k', v') :: rest, k => do
    let b ← dictKeyMatch k' k
    if b then .ok (some v') else findEntry rest k

/-- Python `key in self.items`. -/
def memKey (items : List (HT × VT)) (k : HT) : Except Err Bool := do
  let v ← findEntry items k
  .ok v.isSome

/-- Python dict upsert `newval[k] = v`: an existing equal key keeps its
position (and its original key object); otherwise the pair is appended. -/
def dictSet : List (HT × VT) → HT → VT → Except Err (List (HT × VT))
  | [], k, v => .ok [(k, v)]
  | (k', v') :: rest, k, v => do
    let b ← dictKeyMatch k' k
    if b then .ok ((k', v) :: rest)
    else do
      let r ← dictSet rest k v
      .ok ((k', v') :: r)

/-- Python `newval.pop(k)`: removes the entry for an equal key returning
its value, raises `KeyError` when no key matches. -/
def dictPop : List (HT × VT) → HT → Except Err (VT × List (HT × VT))
  | [], _ => .error .keyError
  | (k', v') :: rest, k => do
    let b ← dictKeyMatch k' k
    if b then .ok (v', rest)
    else do
      let (r, l) ← dictPop rest k
      .ok (r, (k', v') :: l)

/-- Guard conditions attached to abstract values, as far as the claims
observe them. -/
inductive Guard where
  /-- The alias guard (`DUPLICATE_INPUT`): the runtime objects reached
  from the two origins are the same object. -/
  | dupe (objSrc dupSrc : Option Nat)
  /-- `GuardBuilder.DICT_CONTAINS` over the external registry:
  key `key` is (`invert = false`) / is not (`invert = true`) present. -/
  | dictContains (key : String) (invert : Bool)
deriving DecidableEq, Repr

/-- An element held by a `SetVariable`: the abstract value, its origin
(`vt.source`, the provenance used by the alias check), and its
accumulated guard conditions. -/
structure SElem where
  core : VT
  src : Option Nat
  guards : List Guard

/-- Underlying values of set elements (`SetVariable.SetElement`,
dicts.py:330-344): sets only ever key tensor-like values by their fake
tensor, constants by their literal, and method wrappers by their
extracted constant, so no nesting occurs. -/
inductive SUnder where
  | fake (n : Nat)
  | lit (c : PyConst)
  | mw (n : Nat)
deriving DecidableEq, Repr

/-- `SetVariable._as_set_element` (dicts.py:378-397) on the wrapped
abstract value: tensor-like values need a resolved fake tensor
(`unimplemented` otherwise), constants key by their literal, method
wrappers by their constant, and everything else is unsupported. -/
def as_set_elementCore : VT → Except Err SUnder
  | .tensor (some f) => .ok (.fake f)
  | .tensor Option.none => .error .unsupported
  | .const c => .ok (.lit c)
  | .methodWrapper n => .ok (.mw n)
  | _ => .error .unsupported

/-- `SetVariable._as_set_element` of a tracked element. -/
def as_set_element (e : SElem) : Except Err SUnder :=
  as_set_elementCore e.core

/-- `SetVariable.SetElement.__eq__` (dicts.py:338-344) together with the
hash pre-check of Python's set probing (`__hash__` is
`hash(underlying_value)`): tensor-like elements compare by fake-tensor
identity; literal elements compare by Python `==`, which identifies
booleans with their integer values (`True == 1`, and
`hash(True) == hash(1)`, so the hash pre-check agrees); method-wrapper
elements compare by their extracted constant; elements of different
kinds compare unequal (their hashes agree only accidentally, which is
not modelled). -/
def sunderEq : SUnder → SUnder → Bool
  | .fake m, .fake n => m == n
  | .lit a, .lit b => pycEq a b
  | .mw m, .mw n => m == n
  | _, _ => false

/-- Modelled from the spec: `make_dupe_guard` (torch/_dynamo/guards.py,
not under src/) combined with `source.make_guard`: when the two
elements' origins differ, an alias guard asserting that the two runtime
objects are the same object is derived (spec §4.4). -/
def make_dupe_guard (objSrc dupSrc : Option Nat) : Option Guard :=
  if objSrc ≠ dupSrc then some (.dupe objSrc dupSrc) else Option.none

/-- `SetVariable._underlying_items` (dicts.py:399-407): each contained
element paired with its set-element key; any element of an unsupported
kind raises. -/
def undersOf : List SElem → Except Err (List (SElem × SUnder))
  | [] => .ok []
  | e :: rest =>
    match as_set_element e with
    | .error err => .error err
    | .ok u =>
      match undersOf rest with
      | .error err => .error err
      | .ok tail => .ok ((e, u) :: tail)

/-- The guard-attachment pass of `SetVariable._add` (dicts.py:422-431):
for an element whose hash equals the incoming set element's hash
(`sunderEq`, which like Python's `hash` identifies `True` with `1`),
derive the alias guard from the two origins and attach it to the
element.  Modelled from the spec: guard attachment through
`VariableTracker.add_guards` (torch/_dynamo/variables/base.py, not under
src/) accumulates the guard into the element's guard set (spec §4.4:
"derive and attach a guard asserting the runtime objects are the same
object"). -/
def attachAlias (sx : SUnder) (xsrc : Option Nat) (p : SElem × SUnder) : SElem :=
  if sunderEq p.2 sx then
    match make_dupe_guard p.1.src xsrc with
    | some g => { p.1 with guards := p.1.guards ++ [g] }
    | Option.none => p.1
  else p.1

/-- `SetVariable._add` (dicts.py:409-433) for a single incoming item:
compute all underlying items, compute the incoming set element; append
when no element equal under `SetElement.__eq__` (`sunderEq`) exists,
otherwise keep the sequence and run the alias-guard pass. -/
def setAdd (items : List SElem) (x : SElem) : Except Err (List SElem) :=
  match undersOf items with
  | .error err => .error err
  | .ok pairs =>
    match as_set_element x with
    | .error err => .error err
    | .ok sx =>
      if pairs.all fun p => !(sunderEq p.2 sx) then
        .ok (items ++ [x])
      else
        .ok (pairs.map (attachAlias sx x.src))

/-- `SetVariable._add` over a list of items (the `__init__` path,
dicts.py:346-358, which starts from an accumulator and adds the items in
order). -/
def setAddAll (acc : List SElem) : List SElem → Except Err (List SElem)
  | [] => .ok acc
  | x :: xs =>
    match setAdd acc x with
    | .error err => .error err
    | .ok acc' => setAddAll acc' xs

/-- A `SetVariable`: the element sequence maintained under set
semantics, plus the mutability flag (`mutable_local`). -/
structure SetState where
  items : List SElem
  mutable : Bool

/-- Result of a `SetVariable.call_method`: the returned abstract value
and, when trace-wide substitution occurred (`tx.replace_all`), the
element sequence of the replacement set. -/
structure SetRes where
  ret : SElem
  newItems : Option (List SElem)

/-- Modelled from the spec: `iter_contains` (torch/_dynamo/utils.py, not
under src/) with `check_tensor_identity=True` — membership using
set-element equality: tensor-like elements compare by fake-tensor
identity, others by value (spec §4.4). -/
def iter_containsB (items : List SElem) (x : SElem) : Except Err Bool := do
  let pairs ← undersOf items
  let sx ← as_set_element x
  .ok (pairs.any fun p => sunderEq p.2 sx)

/-- `SetVariable.call_method` (dicts.py:435-476): `add` rebuilds a fresh
`SetVariable` from `_add`'s result and substitutes it; `pop` removes the
last-inserted element and substitutes; `__len__` and `__contains__` are
read-only; anything else is unsupported. -/
def setCallMethod (s : SetState) (name : String) (args : List SElem) : Except Err SetRes :=
  if name = "add" ∧ args.isEmpty = false ∧ s.mutable = true then
    match args with
    | [] => .error .assertFail
    | x :: _ =>
      match setAdd s.items x with
      | .error err => .error err
      | .ok items₁ =>
        match setAddAll [] items₁ with
        | .error err => .error err
        | .ok items₂ => .ok ⟨⟨.const .none, Option.none, []⟩, some items₂⟩
  else if name = "pop" ∧ s.mutable = true then
    if args.isEmpty = false then .error .assertFail
    else
      match s.items.getLast? with
      | Option.none => .error .indexError
      | some e => .ok ⟨e, some s.items.dropLast⟩
  else if name = "__len__" then
    .ok ⟨⟨.const (.int s.items.length), Option.none, []⟩, Option.none⟩
  else if name = "__contains__" then
    match args with
    | [x] => do
      let b ← iter_containsB s.items x
      .ok ⟨⟨.const (.bool b), Option.none, []⟩, Option.none⟩
    | _ => .error .assertFail
  else .error .unsupported

/-- The concrete runtime container type a `ConstDictVariable` stands
for (`user_cls`): plain `dict` or `collections.OrderedDict`. -/
inductive DUserCls where
  | dict
  | odict
deriving DecidableEq, Repr

/-- A `ConstDictVariable`: insertion-ordered entries from hash-key
wrappers to abstract values, the container tag, and the mutability flag
(`mutable_local`). -/
structure DictState where
  items : List (HT × VT)
  userCls : DUserCls
  mutable : Bool

/-- Abstract value returned by a `ConstDictVariable.call_method`:
either a plain abstract value, a mapping, or a `SetVariable` (from
`keys`). -/
inductive RetVal where
  | vt (v : VT)
  | dict (d : DictState)
  | set (items : List SElem)

/-- Result of a `ConstDictVariable.call_method`: the returned abstract
value and, for mutators, the replacement mapping passed to
`tx.replace_all` (trace-wide substitution); `Option.none` means no
substitution occurred. -/
structure CMRes where
  ret : RetVal
  subst : Option DictState

/-- `ConstDictVariable.call_method` (dicts.py:190-271), with
`getitem_const` (dicts.py:186-188) inlined in the `__getitem__` branch.
Branches are translated in source order.  The `update` branch
(dicts.py:248-257) requires a `ConstDictVariable` argument; mapping-valued
arguments are outside this embedding's `VT`, so for every representable
argument list that branch's condition is false and the call falls
through, exactly as the source does for non-mapping arguments.  Keyword
arguments are never passed by the modelled calls, so `assert not kwargs`
checks are trivially satisfied and omitted.  The final fallback
`super().call_method` (`VariableTracker.call_method`,
torch/_dynamo/variables/base.py, not under src/) is modelled from the
spec as the unsupported-method failure (spec §4.5/§7). -/
def constDictCallMethod (self : DictState) (name : String) (args : List VT) : Except Err CMRes :=
  let argHashable : Bool := match args with
    | [] => false
    | a :: _ => is_hashable a
  if name = "__getitem__" then
    match args with
    | [] => .error .indexError
    | a :: _ => do
      let k ← mkHashable a
      match ← findEntry self.items k with
      | some v => .ok ⟨.vt v, Option.none⟩
      | Option.none => .error .keyError
  else if name = "items" then
    if args.isEmpty then
      .ok ⟨.vt (.tuple (self.items.map fun p => .tuple [p.1.vt, p.2])), Option.none⟩
    else .error .assertFail
  else if name = "keys" then
    if args.isEmpty then do
      let elems ← setAddAll [] (self.items.map fun p => ⟨p.1.vt, Option.none, []⟩)
      .ok ⟨.set elems, Option.none⟩
    else .error .assertFail
  else if name = "values" then
    if args.isEmpty then .ok ⟨.vt (.tuple (self.items.map (·.2))), Option.none⟩
    else .error .assertFail
  else if name = "__len__" then
    if args.isEmpty then .ok ⟨.vt (.const (.int self.items.length)), Option.none⟩
    else .error .assertFail
  else if name = "__setitem__" ∧ argHashable = true ∧ self.mutable = true then
    match args with
    | [a, b] => do
      let k ← mkHashable a
      let items' ← dictSet self.items k b
      let d' : DictState := { self with items := items' }
      .ok ⟨.dict d', some d'⟩
    | _ => .error .assertFail
  else if (name = "pop" ∨ name = "get") ∧ argHashable = true then
    match args with
    | [] => .error .indexError
    | a :: rest => do
      let k ← mkHashable a
      let mem ← memKey self.items k
      if mem = false ∧ args.length = 2 then
        match rest with
        | d :: _ => .ok ⟨.vt d, Option.none⟩
        | [] => .error .indexError
      else if name = "pop" ∧ self.mutable = true then do
        let (v, items') ← dictPop self.items k
        let d' : DictState := { self with items := items' }
        .ok ⟨.vt v, some d'⟩
      else if name = "get" ∧ mem = true then do
        match ← findEntry self.items k with
        | some v => .ok ⟨.vt v, Option.none⟩
        | Option.none => .error .keyError
      else .error .unsupported
  else if name = "__getattr__" ∧ argHashable = true then
    match args with
    | [] => .error .indexError
    | a :: _ => do
      let k ← mkHashable a
      let mem ← memKey self.items k
      if mem then
        match ← findEntry self.items k with
        | some v => .ok ⟨.vt v, Option.none⟩
        | Option.none => .error .keyError
      else .error .unsupported
  else if name = "__contains__" ∧ args.isEmpty = false then
    if argHashable then
      match args with
      | [] => .error .assertFail
      | a :: _ => do
        let k ← mkHashable a
        let mem ← memKey self.items k
        .ok ⟨.vt (.const (.bool mem)), Option.none⟩
    else .ok ⟨.vt (.const (.bool false)), Option.none⟩
  else .error .unsupported

/-- The build operations emitted by `reconstruct`
(`ConstDictVariable.reconstruct`, dicts.py:163-184). -/
inductive BuildOp where
  /-- Load `collections` and its `OrderedDict` attribute. -/
  | loadOrderedDict
  /-- Emit code pushing the given abstract value (`codegen(vt)`). -/
  | push (v : VT)
  /-- `BUILD_MAP` of the given size. -/
  | buildMap (n : Nat)
  /-- Call the loaded constructor with the given argument count. -/
  | callFn (n : Nat)

/-- `ConstDictVariable.reconstruct` (dicts.py:163-184): optionally load
`collections.OrderedDict`, push each key and value in insertion order,
then `BUILD_MAP` (and the constructor call for ordered dicts). -/
def reconstructOps (self : DictState) : List BuildOp :=
  (if self.userCls = .odict then [.loadOrderedDict] else []) ++
    (self.items.foldr (fun p acc => .push p.1.vt :: .push p.2 :: acc) []) ++
    (if self.userCls = .odict then [.buildMap self.items.length, .callFn 1]
     else [.buildMap self.items.length])

/-- A value bound to a schema field in `DataClassVariable.create`
(dicts.py:553-579): either already an abstract value, the raw Python
`None`, a raw non-`None` literal, or a raw non-literal object. -/
inductive BoundVal where
  | vt (v : VT)
  | rawNone
  | rawLit (c : PyConst)
  | rawObj

/-- `bound.arguments[key]` over the bound-argument mapping. -/
def lookupBound : List (String × BoundVal) → String → Option BoundVal
  | [], _ => Option.none
  | (k, v) :: rest, s => if k = s then some v else lookupBound rest s

/-- The field loop of `DataClassVariable.create` (dicts.py:562-574):
each bound field becomes an entry keyed by `ConstantVariable.create(key)`
unless its value is the raw `None` and `include_none` is false, in which
case it is dropped; a raw non-`None` value fails the `assert val is
None` (or, with `include_none`, a non-literal fails the literal
assert). -/
def dcBuildItems (bound : List (String × BoundVal)) (includeNone : Bool) :
    List String → Except Err (List (VT × VT))
  | [] => .ok []
  | k :: ks =>
    match lookupBound bound k with
    | Option.none => .error .keyError
    | some (.vt v) => do
      let rest ← dcBuildItems bound includeNone ks
      .ok ((VT.const (.str k), v) :: rest)
    | some .rawNone =>
      if includeNone then do
        let rest ← dcBuildItems bound includeNone ks
        .ok ((VT.const (.str k), VT.const .none) :: rest)
      else dcBuildItems bound includeNone ks
    | some (.rawLit c) =>
      if includeNone then do
        let rest ← dcBuildItems bound includeNone ks
        .ok ((VT.const (.str k), VT.const c) :: rest)
      else .error .assertFail
    | some .rawObj => .error .assertFail

/-- Python `==` between a raw `str` and a `ConstantVariable` key object:
`VariableTracker` defines neither `__eq__` nor `__hash__`, so dict
probing compares by object identity and hash, and a string never matches
a `VariableTracker` object. -/
def strEqVTKey (_s : String) (_k : VT) : Bool := false

/-- Python lookup `items[keys[0]]` where `items` is keyed by
`ConstantVariable` objects and `keys[0]` is the raw field-name string
(dicts.py:575). -/
def lookupStrKeyInVTDict (items : List (VT × VT)) (s : String) : Option VT :=
  (items.find? fun p => strEqVTKey s p.1).map (·.2)

/-- `isinstance(·, variables.TensorVariable)`. -/
def isTensorVT : VT → Bool
  | .tensor _ => true
  | _ => false

/-- `DataClassVariable.create` (dicts.py:553-579): bind the call's
arguments to the schema field names (`bound`, assumed defaulted; the
`assert set(bound.arguments.keys()) == set(keys)` schema check comes
first), build the items with the `include_none` policy, then run the
single-field check `len(items) == 1 and not
isinstance(items[keys[0]], TensorVariable)`, whose subscript looks the
raw string `keys[0]` up among the `ConstantVariable`-keyed items. -/
def dcCreate (keys : List String) (bound : List (String × BoundVal)) (includeNone : Bool) :
    Except Err (List (VT × VT)) := do
  if ¬ ((keys.all fun k => (lookupBound bound k).isSome)
        ∧ (bound.all fun p => p.1 ∈ keys)) then
    .error .assertFail
  else
    let items ← dcBuildItems bound includeNone keys
    if items.length = 1 then
      match lookupStrKeyInVTDict items (keys.headD "") with
      | Option.none => .error .keyError
      | some v => if isTensorVT v then .ok items else .error .unsupported
    else .ok items

/-- Classes that can own an unoverridden C-implemented mapping method
(`fn.__objclass__` in the dispatch check, dicts.py:750-753). -/
inductive PyBase where
  | dict
  | odict
  | otherClass
deriving DecidableEq, Repr

/-- What `getattr(self.user_cls, name)` resolves to: the `__objclass__`
attribute when the resolved attribute has one (C slot wrappers and
methods of C classes do; Python functions do not), and the identity of
the resolved function object. -/
structure ResolvedFn where
  objclass : Option PyBase
  fnId : Nat

/-- The four overridable method names of `CustomizedDictVariable.call_method`
(dicts.py:756). -/
def overridableNames : List String := ["__getitem__", "to_tuple", "__setitem__", "__setattr__"]

/-- Result of a `CustomizedDictVariable.call_method`: either the call was
delegated to the base `ConstDictVariable.call_method` on the same items,
or the user's override function is interpreted
(`tx.inline_user_function_return`) with the mapping itself prepended to
the arguments. -/
inductive CustomRes where
  | delegated (r : CMRes)
  | inlined (fnId : Nat) (self : DictState) (args : List VT)

/-- `CustomizedDictVariable.call_method` (dicts.py:739-764): resolve
`name` on the user class (`getattr` raises `AttributeError` when the
name is missing); a method whose `__objclass__` is `dict` or
`collections.OrderedDict` (an unoverridden C mapping method) is served
by `super().call_method`; otherwise one of the four overridable names is
inlined with `self` as the first argument; anything else is
`unimplemented`. -/
def customizedCallMethod (resolve : String → Option ResolvedFn) (self : DictState)
    (name : String) (args : List VT) : Except Err CustomRes :=
  match resolve name with
  | Option.none => .error .attributeError
  | some fn =>
    if fn.objclass = some .dict ∨ fn.objclass = some .odict then
      (constDictCallMethod self name args).map .delegated
    else if name ∈ overridableNames then
      .ok (.inlined fn.fnId self args)
    else .error .unsupported

/-- An abstract value together with its accumulated guard set, as
observed on results of the sys.modules view (guard sets are modelled as
lists; membership is the observable). -/
structure GVT where
  val : VT
  guards : List Guard

/-- Python set insertion `{*guards, g}`: add `g` unless already present. -/
def guardInsert (g : Guard) (l : List Guard) : List Guard :=
  if g ∈ l then l else l ++ [g]

/-- Modelled from the spec: `VariableTracker.add_guards`
(torch/_dynamo/variables/base.py, not under src/): accumulate the given
guard conditions into the value's guard set (spec §6: guard
accumulation/propagation). -/
def addGuardsG (v : GVT) (gs : List Guard) : GVT :=
  { v with guards := gs.foldl (fun acc g => guardInsert g acc) v.guards }

/-- Modelled from the spec: `VariableBuilder(tx, GetItemSource(...))(sys.modules[k])`
(torch/_dynamo/variables/builder.py, not under src/): on a registry hit,
construct a fresh abstract value sourced from the live external entry
(spec §3 GlobalRegistrySnapshot). -/
def variableBuilderModule (_k : String) (modId : Nat) : GVT :=
  ⟨.module modId, []⟩

/-- The external `sys.modules` registry: module names mapped to module
object identities. -/
structure SysModules where
  mods : List (String × Nat)

/-- `sys.modules[k]` as an optional lookup. -/
def sysFind (sm : SysModules) (k : String) : Option Nat :=
  (sm.mods.find? fun p => p.1 == k).map (·.2)

/-- `k in sys.modules`. -/
def sysContains (sm : SysModules) (k : String) : Bool :=
  (sysFind sm k).isSome

/-- `PythonSysModulesVariable._contains_helper` (dicts.py:844-851):
re-check live membership and build the guard set
`{*self.guards, DICT_CONTAINS(key=k, invert=not has_key)}`. -/
def contains_helper (sm : SysModules) (selfGuards : List Guard) (k : String) :
    Bool × List Guard :=
  let has := sysContains sm k
  (has, guardInsert (Guard.dictContains k (!has)) selfGuards)

/-- `PythonSysModulesVariable.call_contains` (dicts.py:853-858). -/
def call_contains (sm : SysModules) (selfGuards : List Guard) (k : String) : GVT :=
  let p := contains_helper sm selfGuards k
  ⟨.const (.bool p.1), p.2⟩

/-- `PythonSysModulesVariable.call_get` (dicts.py:860-878). -/
def call_get (sm : SysModules) (selfGuards : List Guard) (k : String)
    (default : Option GVT) : GVT :=
  let p := contains_helper sm selfGuards k
  match sysFind sm k with
  | some m => addGuardsG (variableBuilderModule k m) p.2
  | Option.none =>
    match default with
    | some d => addGuardsG d p.2
    | Option.none => ⟨.const .none, p.2⟩

/-- `PythonSysModulesVariable.call_getitem` (dicts.py:880-889):
`sys.modules[k]` raises `KeyError` on a missing key. -/
def call_getitem (sm : SysModules) (selfGuards : List Guard) (k : String) :
    Except Err GVT :=
  let p := contains_helper sm selfGuards k
  match sysFind sm k with
  | some m => .ok (addGuardsG (variableBuilderModule k m) p.2)
  | Option.none => .error .keyError

/-- A concrete user class for exercising the customized dispatch: its
`__len__` resolves to the unoverridden C `dict` method, its
`__getitem__` to a user override function, and `move_stuff` to another
user-defined function. -/
def resolveSample : String → Option ResolvedFn :=
  fun n =>
    if n = "__len__" then some ⟨some .dict, 0⟩
    else if n = "__getitem__" then some ⟨Option.none, 1⟩
    else if n = "move_stuff" then some ⟨Option.none, 2⟩
    else Option.none

theorem is_hashableList_iff (xs : List VT) :
    is_hashableList xs = true ↔ ∀ x ∈ xs, is_hashable x = true := by
  induction xs with
  | nil => simp [is_hashableList]
  | cons x xs ih => simp [is_hashableList, ih]

/-- C2: the abstract hashability classifier accepts a value iff it is a
tensor-like placeholder with a resolved example value, an abstract tuple
all of whose elements it accepts, or one of the builtin-callable,
symbolic-number, constant-literal, or enum-member kinds; in particular a
tensor-like placeholder without a resolved example value is rejected. -/
theorem C2_hashability_classifier :
    (∀ v : VT, is_hashable v = true ↔
      ((∃ f, v = VT.tensor (some f)) ∨
       (∃ xs, v = VT.tuple xs ∧ ∀ x ∈ xs, is_hashable x = true) ∨
       (∃ n, v = VT.builtin n) ∨
       (∃ c, v = VT.symnode c) ∨
       (∃ c, v = VT.const c) ∨
       (∃ c m, v = VT.enum c m))) ∧
    is_hashable (VT.tensor Option.none) = false := by
  refine ⟨fun v => ?_, rfl⟩
  cases v with
  | tensor fake => cases fake <;> simp [is_hashable]
  | tuple xs => simp [is_hashable, is_hashableList_iff]
  | builtin n => simp [is_hashable]
  | symnode c => simp [is_hashable]
  | const c => simp [is_hashable]
  | enum c m => simp [is_hashable]
  | methodWrapper n => simp [is_hashable]
  | module m => simp [is_hashable]
  | other => simp [is_hashable]

/-- C1: evaluation of the code at the failing input.  On the mutable
mapping `{("a",): 0}` with the key-eligible tuple key `("a",)` already
present, `set_item` raises `NameError` (the bare `_eq_impl` reference in
the tuple branch of `_HashableTracker._eq_impl`) instead of producing a
mapping in which `get_item` returns the new value and whose length is
unchanged; the key's eligibility is witnessed alongside. -/
theorem C1_set_item_present_tuple_key_raises :
    is_hashable (VT.tuple [VT.const (.str "a")]) = true ∧
    constDictCallMethod
        ⟨[(⟨VT.tuple [VT.const (.str "a")]⟩, VT.const (.int 0))], .dict, true⟩
        "__setitem__" [VT.tuple [VT.const (.str "a")], VT.const (.int 5)]
      = .error .nameError := ⟨rfl, rfl⟩

/-- C3: evaluation of the code at the failing input.  Two hash-key
wrappers of the classifier-accepted non-empty abstract tuple
`(1,)` raise `NameError` when compared for equality (bare `_eq_impl`
name in the tuple branch), so wrapper equality is not a total
comparison; the classifier's acceptance of the wrapped value is
witnessed alongside. -/
theorem C3_wrapper_eq_on_tuples_raises :
    is_hashable (VT.tuple [VT.const (.int 1)]) = true ∧
    htEq ⟨VT.tuple [VT.const (.int 1)]⟩ ⟨VT.tuple [VT.const (.int 1)]⟩
      = .error .nameError := ⟨rfl, rfl⟩

/-- C4: evaluation of the code at the failing input.  The mapping built
by inserting keys `["a", ("b",), "c"]` reconstructs in insertion order,
but updating the already-present tuple key `("b",)` raises `NameError`
instead of keeping the key at its existing position. -/
theorem C4_update_present_tuple_key_raises :
    reconstructOps
        ⟨[(⟨VT.const (.str "a")⟩, VT.const (.int 1)),
          (⟨VT.tuple [VT.const (.str "b")]⟩, VT.const (.int 2)),
          (⟨VT.const (.str "c")⟩, VT.const (.int 3))], .dict, true⟩
      = [.push (VT.const (.str "a")), .push (VT.const (.int 1)),
         .push (VT.tuple [VT.const (.str "b")]), .push (VT.const (.int 2)),
         .push (VT.const (.str "c")), .push (VT.const (.int 3)),
         .buildMap 3] ∧
    constDictCallMethod
        ⟨[(⟨VT.const (.str "a")⟩, VT.const (.int 1)),
          (⟨VT.tuple [VT.const (.str "b")]⟩, VT.const (.int 2)),
          (⟨VT.const (.str "c")⟩, VT.const (.int 3))], .dict, true⟩
        "__setitem__" [VT.tuple [VT.const (.str "b")], VT.const (.int 9)]
      = .error .nameError := ⟨rfl, rfl⟩

/-- C6: evaluation of the code at the failing input.  On the mutable
mapping `{("k",): 7}`, `pop` of the present key-eligible tuple key
`("k",)` raises `NameError` (from the membership probe's wrapper
comparison) instead of removing the key, returning `7` and substituting
the mapping; alongside, the absent-key behaviours the claim also states
are evaluated on the same mapping: `pop` of an absent key with a default
returns the default with no substitution, and `pop` of an absent key
with no default fails with `KeyError`. -/
theorem C6_pop_present_tuple_key_raises :
    constDictCallMethod ⟨[(⟨VT.tuple [VT.const (.str "k")]⟩, VT.const (.int 7))], .dict, true⟩
        "pop" [VT.tuple [VT.const (.str "k")]] = .error .nameError ∧
    constDictCallMethod ⟨[(⟨VT.tuple [VT.const (.str "k")]⟩, VT.const (.int 7))], .dict, true⟩
        "pop" [VT.const (.str "z"), VT.const (.int 9)]
      = .ok ⟨.vt (VT.const (.int 9)), Option.none⟩ ∧
    constDictCallMethod ⟨[(⟨VT.tuple [VT.const (.str "k")]⟩, VT.const (.int 7))], .dict, true⟩
        "pop" [VT.const (.str "z")] = .error .keyError :=
  ⟨rfl, rfl, rfl⟩

/-- C8: evaluation of the code at the failing input.  Constructing a
record over the two-field schema `["a", "b"]` with `a` bound to the
non-tensor abstract constant `3` and `b` bound to the raw `None` (so `b`
is dropped and exactly one non-tensor field remains) raises `KeyError` —
the single-field check subscripts the items with the raw string
`keys[0]`, which never matches the `ConstantVariable` keys — instead of
the unsupported-feature rejection; the same `KeyError` also hits a
single remaining tensor field, which per the claim should construct. -/
theorem C8_single_field_check_raises_keyerror :
    dcCreate ["a", "b"] [("a", .vt (VT.const (.int 3))), ("b", .rawNone)] false
      = .error .keyError ∧
    dcCreate ["a", "b"] [("a", .vt (VT.tensor (some 0))), ("b", .rawNone)] false
      = .error .keyError ∧
    dcCreate ["a", "b"] [("a", .rawNone), ("b", .rawNone)] false = .ok [] :=
  ⟨rfl, rfl, rfl⟩

/-- C7: the customized-mapping dispatch rule — a resolved method whose
`__objclass__` is the base `dict`/`OrderedDict` implementation (not
overridden) is served exactly as the base symbolic mapping serves it on
the same items; one of the four overridable names, when overridden,
interprets the user's function with the mapping itself as first
argument; any other resolved method name fails as unsupported. -/
theorem C7_customized_dispatch (resolve : String → Option ResolvedFn) (self : DictState)
    (name : String) (args : List VT) (fn : ResolvedFn)
    (h : resolve name = some fn) :
    ((fn.objclass = some .dict ∨ fn.objclass = some .odict) →
      customizedCallMethod resolve self name args
        = (constDictCallMethod self name args).map .delegated) ∧
    (¬ (fn.objclass = some .dict ∨ fn.objclass = some .odict) →
      name ∈ overridableNames →
      customizedCallMethod resolve self name args = .ok (.inlined fn.fnId self args)) ∧
    (¬ (fn.objclass = some .dict ∨ fn.objclass = some .odict) →
      name ∉ overridableNames →
      customizedCallMethod resolve self name args = .error .unsupported) := by
  have e : customizedCallMethod resolve self name args =
      (if fn.objclass = some .dict ∨ fn.objclass = some .odict then
        (constDictCallMethod self name args).map .delegated
      else if name ∈ overridableNames then .ok (.inlined fn.fnId self args)
      else .error .unsupported) := by
    unfold customizedCallMethod
    rw [h]
  refine ⟨fun hb => ?_, fun hb hm => ?_, fun hb hm => ?_⟩
  · rw [e, if_pos hb]
  · rw [e, if_neg hb, if_pos hm]
  · rw [e, if_neg hb, if_neg hm]

/-- Witness for C7 at concrete inputs: `__len__` (unoverridden, owned by
`dict`) on a one-entry customized mapping is served by the base mapping
call. -/
theorem C7_customized_dispatch_witness :
    customizedCallMethod resolveSample
        ⟨[(⟨VT.const (.str "x")⟩, VT.const (.int 1))], .odict, false⟩ "__len__" []
      = (constDictCallMethod
          ⟨[(⟨VT.const (.str "x")⟩, VT.const (.int 1))], .odict, false⟩ "__len__" []).map
          .delegated :=
  (C7_customized_dispatch resolveSample
    ⟨[(⟨VT.const (.str "x")⟩, VT.const (.int 1))], .odict, false⟩ "__len__" []
    ⟨some .dict, 0⟩ rfl).1 (Or.inl rfl)

theorem mem_guardInsert_self (g : Guard) (l : List Guard) : g ∈ guardInsert g l := by
  unfold guardInsert
  split
  · assumption
  · exact List.mem_append_right _ (List.mem_singleton.mpr rfl)

theorem mem_guardInsert_of_mem {a : Guard} (g : Guard) {l : List Guard} (h : a ∈ l) :
    a ∈ guardInsert g l := by
  unfold guardInsert
  split
  · exact h
  · exact List.mem_append_left _ h

theorem mem_foldl_guardInsert_of_mem_acc {a : Guard} :
    ∀ (gs acc : List Guard), a ∈ acc → a ∈ gs.foldl (fun acc g => guardInsert g acc) acc := by
  intro gs
  induction gs with
  | nil => intro acc h; simpa using h
  | cons g gs ih =>
    intro acc h
    exact ih (guardInsert g acc) (mem_guardInsert_of_mem g h)

theorem mem_foldl_guardInsert_of_mem {a : Guard} :
    ∀ (gs acc : List Guard), a ∈ gs → a ∈ gs.foldl (fun acc g => guardInsert g acc) acc := by
  intro gs
  induction gs with
  | nil => intro acc h; cases h
  | cons g gs ih =>
    intro acc h
    rcases List.mem_cons.mp h with h' | h'
    · subst h'
      exact mem_foldl_guardInsert_of_mem_acc gs _ (mem_guardInsert_self a acc)
    · exact ih _ h'

/-- C9: every `contains`/`get`/`get_item` query of the sys.modules view
re-checks live membership and attaches the guard recording that
membership fact to its result; `get_item` on an absent key fails with
`KeyError`; `get` with a default on an absent key returns the default
carrying only the membership guard (beyond the view's own guards). -/
theorem C9_registry_queries (sm : SysModules) (sg : List Guard) (k : String) (d : GVT) :
    (call_contains sm sg k
       = ⟨.const (.bool (sysContains sm k)),
          guardInsert (Guard.dictContains k (!sysContains sm k)) sg⟩) ∧
    (Guard.dictContains k (!sysContains sm k) ∈ (call_get sm sg k Option.none).guards) ∧
    (Guard.dictContains k (!sysContains sm k) ∈ (call_get sm sg k (some d)).guards) ∧
    (sysContains sm k = false → call_getitem sm sg k = .error .keyError) ∧
    (∀ m, sysFind sm k = some m →
       call_getitem sm sg k
         = .ok (addGuardsG (variableBuilderModule k m)
             (guardInsert (Guard.dictContains k (!sysContains sm k)) sg))) ∧
    (sysContains sm k = false →
       call_get sm sg k (some d)
         = addGuardsG d (guardInsert (Guard.dictContains k (!sysContains sm k)) sg)) := by
  refine ⟨rfl, ?_, ?_, ?_, ?_, ?_⟩
  · cases h : sysFind sm k with
    | none =>
      simp only [call_get, contains_helper, h]
      exact mem_guardInsert_self _ _
    | some m =>
      simp only [call_get, contains_helper, h, addGuardsG]
      exact mem_foldl_guardInsert_of_mem _ _ (mem_guardInsert_self _ _)
  · cases h : sysFind sm k with
    | none =>
      simp only [call_get, contains_helper, h, addGuardsG]
      exact mem_foldl_guardInsert_of_mem _ _ (mem_guardInsert_self _ _)
    | some m =>
      simp only [call_get, contains_helper, h, addGuardsG]
      exact mem_foldl_guardInsert_of_mem _ _ (mem_guardInsert_self _ _)
  · intro h
    cases h' : sysFind sm k with
    | none => simp only [call_getitem, contains_helper, h']
    | some m => simp [sysContains, h'] at h
  · intro m h
    simp only [call_getitem, contains_helper, h]
  · intro h
    cases h' : sysFind sm k with
    | none => simp only [call_get, contains_helper, h']
    | some m => simp [sysContains, h'] at h

/-- Witness for C9 at concrete inputs: a registry holding module `os`.
`get_item` on the present key returns the built module value with the
present-membership guard, `get_item` on an absent key fails with
`KeyError`, and `get` with a default on an absent key returns the
default carrying the absent-membership guard. -/
theorem C9_registry_queries_witness :
    call_getitem ⟨[("os", 4)]⟩ [] "os"
      = .ok ⟨.module 4, [.dictContains "os" false]⟩ ∧
    call_getitem ⟨[("os", 4)]⟩ [] "nope" = .error .keyError ∧
    call_get ⟨[("os", 4)]⟩ [] "nope" (some ⟨.const (.int 1), []⟩)
      = ⟨.const (.int 1), [.dictContains "nope" true]⟩ := by
  refine ⟨?_, ?_, ?_⟩
  · exact ((C9_registry_queries ⟨[("os", 4)]⟩ [] "os"
      ⟨.const (.int 1), []⟩).2.2.2.2.1 4 rfl).trans rfl
  · exact (C9_registry_queries ⟨[("os", 4)]⟩ [] "nope"
      ⟨.const (.int 1), []⟩).2.2.2.1 rfl
  · exact ((C9_registry_queries ⟨[("os", 4)]⟩ [] "nope"
      ⟨.const (.int 1), []⟩).2.2.2.2.2 rfl).trans rfl

/-- C10: `get` on the sys.modules view with no default argument does not
fail on an absent key: it returns the abstract constant `None` with the
absent-membership guard attached. -/
theorem C10_get_absent_no_default (sm : SysModules) (sg : List Guard) (k : String)
    (h : sysContains sm k = false) :
    call_get sm sg k Option.none
      = ⟨.const .none, guardInsert (Guard.dictContains k true) sg⟩ := by
  cases h' : sysFind sm k with
  | none => simp only [call_get, contains_helper, h', sysContains, Option.isSome_none, Bool.not_false]
  | some m => simp [sysContains, h'] at h

/-- Witness for C10 at a concrete input: `get("nope")` on a registry
holding only `os` returns the `None` constant guarded by the
absent-membership guard. -/
theorem C10_get_absent_no_default_witness :
    call_get ⟨[("os", 4)]⟩ [] "nope" Option.none
      = ⟨.const .none, [.dictContains "nope" true]⟩ :=
  (C10_get_absent_no_default ⟨[("os", 4)]⟩ [] "nope" rfl).trans rfl

theorem undersOf_fst : ∀ (l : List SElem) (ps : List (SElem × SUnder)),
    undersOf l = .ok ps → ps.map Prod.fst = l := by
  intro l
  induction l with
  | nil =>
    intro ps h
    simp only [undersOf, Except.ok.injEq] at h
    subst h
    rfl
  | cons e rest ih =>
    intro ps h
    cases h1 : as_set_element e with
    | error err => simp [undersOf, h1] at h
    | ok u =>
      cases h2 : undersOf rest with
      | error err => simp [undersOf, h1, h2] at h
      | ok tail =>
        simp only [undersOf, h1, h2, Except.ok.injEq] at h
        subst h
        simp [ih tail h2]

theorem undersOf_single (x : SElem) (ux : SUnder) (hx : as_set_element x = .ok ux) :
    undersOf [x] = .ok [(x, ux)] := by
  simp [undersOf, hx]

theorem undersOf_append : ∀ (l₁ : List SElem) (p₁ : List (SElem × SUnder))
    (l₂ : List SElem) (p₂ : List (SElem × SUnder)),
    undersOf l₁ = .ok p₁ → undersOf l₂ = .ok p₂ →
    undersOf (l₁ ++ l₂) = .ok (p₁ ++ p₂) := by
  intro l₁
  induction l₁ with
  | nil =>
    intro p₁ l₂ p₂ h1 h2
    simp only [undersOf, Except.ok.injEq] at h1
    subst h1
    simpa using h2
  | cons e rest ih =>
    intro p₁ l₂ p₂ h1 h2
    cases he : as_set_element e with
    | error err => simp [undersOf, he] at h1
    | ok u =>
      cases hr : undersOf rest with
      | error err => simp [undersOf, he, hr] at h1
      | ok tail =>
        simp only [undersOf, he, hr, Except.ok.injEq] at h1
        subst h1
        simp only [List.cons_append, undersOf, he]
        rw [List.append_eq, ih tail l₂ p₂ hr h2]

theorem attachAlias_core (sx : SUnder) (s : Option Nat) (p : SElem × SUnder) :
    (attachAlias sx s p).core = p.1.core := by
  unfold attachAlias
  split
  · split <;> rfl
  · rfl

theorem attachAlias_src (sx : SUnder) (s : Option Nat) (p : SElem × SUnder) :
    (attachAlias sx s p).src = p.1.src := by
  unfold attachAlias
  split
  · split <;> rfl
  · rfl

theorem as_set_element_attachAlias (sx : SUnder) (s : Option Nat) (p : SElem × SUnder) :
    as_set_element (attachAlias sx s p) = as_set_element p.1 := by
  unfold as_set_element
  rw [attachAlias_core]

theorem undersOf_map_attachAlias (sx : SUnder) (s : Option Nat) :
    ∀ (l : List SElem) (ps : List (SElem × SUnder)),
    undersOf l = .ok ps →
    undersOf (ps.map (attachAlias sx s)) = .ok (ps.map fun p => (attachAlias sx s p, p.2)) := by
  intro l
  induction l with
  | nil =>
    intro ps h
    simp only [undersOf, Except.ok.injEq] at h
    subst h
    rfl
  | cons e rest ih =>
    intro ps h
    cases he : as_set_element e with
    | error err => simp [undersOf, he] at h
    | ok u =>
      cases hr : undersOf rest with
      | error err => simp [undersOf, he, hr] at h
      | ok tail =>
        simp only [undersOf, he, hr, Except.ok.injEq] at h
        subst h
        simp only [List.map_cons, undersOf, as_set_element_attachAlias, he, ih tail hr]

theorem setAddAll_distinct : ∀ (l acc : List SElem)
    (pacc pl : List (SElem × SUnder)),
    undersOf acc = .ok pacc → undersOf l = .ok pl →
    ((pacc ++ pl).map Prod.snd).Pairwise (fun a b => sunderEq a b = false) →
    setAddAll acc l = .ok (acc ++ l) := by
  intro l
  induction l with
  | nil =>
    intro acc pacc pl h1 h2 hd
    simp [setAddAll]
  | cons x xs ih =>
    intro acc pacc pl h1 h2 hd
    cases hx : as_set_element x with
    | error err => simp [undersOf, hx] at h2
    | ok ux =>
      cases hxs : undersOf xs with
      | error err => simp [undersOf, hx, hxs] at h2
      | ok pxs =>
        simp only [undersOf, hx, hxs, Except.ok.injEq] at h2
        subst h2
        have hsep := (List.pairwise_append.mp (by simpa using hd)).2.2
        have hall : pacc.all (fun p => !(sunderEq p.2 ux)) = true := by
          rw [List.all_eq_true]
          intro p hp
          have h := hsep p.2 (List.mem_map_of_mem _ hp) ux (by simp)
          rw [h]
          rfl
        have hadd : setAdd acc x = .ok (acc ++ [x]) := by
          simp only [setAdd, h1, hx]
          rw [if_pos hall]
        have hacc' : undersOf (acc ++ [x]) = .ok (pacc ++ [(x, ux)]) :=
          undersOf_append acc pacc [x] [(x, ux)] h1 (undersOf_single x ux hx)
        have hd' : (((pacc ++ [(x, ux)]) ++ pxs).map Prod.snd).Pairwise
            (fun a b => sunderEq a b = false) := by
          rw [List.append_assoc]
          simpa using hd
        calc setAddAll acc (x :: xs)
            = setAddAll (acc ++ [x]) xs := by simp [setAddAll, hadd]
          _ = .ok ((acc ++ [x]) ++ xs) := ih (acc ++ [x]) (pacc ++ [(x, ux)]) pxs hacc' hxs hd'
          _ = .ok (acc ++ x :: xs) := by simp

/-- C5: on a mutable symbolic set whose elements' set-element wrappers
are pairwise unequal under `SetElement.__eq__` (the set invariant),
`add` of an item whose wrapper equals no present element appends the
item and substitutes; `add` of an item whose wrapper equals a present
element (equality identifying `True` with `1`, as Python `==` and
`hash` do) appends nothing — the element sequence, with origins, and
the length are unchanged — and whenever a matching element's origin
differs from the item's origin an alias guard asserting the two runtime
objects are the same object is attached to an element of the resulting
set. -/
theorem C5_set_add (s : SetState) (x : SElem) (pairs : List (SElem × SUnder)) (ux : SUnder)
    (hm : s.mutable = true)
    (hp : undersOf s.items = .ok pairs)
    (hx : as_set_element x = .ok ux)
    (hdist : (pairs.map Prod.snd).Pairwise (fun a b => sunderEq a b = false)) :
    ((∀ u ∈ pairs.map Prod.snd, sunderEq u ux = false) →
      setCallMethod s "add" [x]
        = .ok ⟨⟨.const .none, Option.none, []⟩, some (s.items ++ [x])⟩) ∧
    ((∃ u ∈ pairs.map Prod.snd, sunderEq u ux = true) →
      ∃ items₂,
        setCallMethod s "add" [x] = .ok ⟨⟨.const .none, Option.none, []⟩, some items₂⟩ ∧
        items₂.map (fun e => (e.core, e.src)) = s.items.map (fun e => (e.core, e.src)) ∧
        items₂.length = s.items.length ∧
        (∀ p ∈ pairs, sunderEq p.2 ux = true → p.1.src ≠ x.src →
          ∃ e ∈ items₂, Guard.dupe p.1.src x.src ∈ e.guards)) := by
  have hcond : ("add" : String) = "add" ∧ ([x] : List SElem).isEmpty = false ∧ s.mutable = true :=
    ⟨rfl, rfl, hm⟩
  have hstep : setCallMethod s "add" [x] =
      (match setAdd s.items x with
       | .error err => .error err
       | .ok items₁ =>
         match setAddAll [] items₁ with
         | .error err => .error err
         | .ok items₂ => .ok ⟨⟨.const .none, Option.none, []⟩, some items₂⟩) := by
    unfold setCallMethod
    rw [if_pos hcond]
  constructor
  · intro hnone
    have hall : pairs.all (fun p => !(sunderEq p.2 ux)) = true := by
      rw [List.all_eq_true]
      intro p hp'
      have h := hnone p.2 (List.mem_map_of_mem _ hp')
      rw [h]
      rfl
    have hadd : setAdd s.items x = .ok (s.items ++ [x]) := by
      simp only [setAdd, hp, hx]
      rw [if_pos hall]
    have haddall : setAddAll [] (s.items ++ [x]) = .ok ([] ++ (s.items ++ [x])) := by
      apply setAddAll_distinct (s.items ++ [x]) [] [] (pairs ++ [(x, ux)]) rfl
        (undersOf_append s.items pairs [x] [(x, ux)] hp (undersOf_single x ux hx))
      simp only [List.nil_append, List.map_append]
      rw [List.pairwise_append]
      refine ⟨hdist, by simp, ?_⟩
      intro a ha b hb
      simp only [List.map_cons, List.map_nil, List.mem_singleton] at hb
      subst hb
      exact hnone a ha
    simp only [hstep, hadd, haddall, List.nil_append]
  · intro hmem
    obtain ⟨u₀, hu₀, hequ₀⟩ := hmem
    have hne : ¬ (pairs.all (fun p => !(sunderEq p.2 ux)) = true) := by
      rw [List.all_eq_true]
      intro hforall
      obtain ⟨p₀, hp₀, hp₀e⟩ := List.mem_map.mp hu₀
      have hb := hforall p₀ hp₀
      rw [hp₀e, hequ₀] at hb
      simp at hb
    have hadd : setAdd s.items x = .ok (pairs.map (attachAlias ux x.src)) := by
      simp only [setAdd, hp, hx]
      rw [if_neg hne]
    have hund : undersOf (pairs.map (attachAlias ux x.src))
        = .ok (pairs.map fun p => (attachAlias ux x.src p, p.2)) :=
      undersOf_map_attachAlias ux x.src s.items pairs hp
    have hsnd : ((pairs.map fun p => (attachAlias ux x.src p, p.2)).map Prod.snd)
        = pairs.map Prod.snd := by
      simp [List.map_map]
    have haddall : setAddAll [] (pairs.map (attachAlias ux x.src))
        = .ok ([] ++ pairs.map (attachAlias ux x.src)) := by
      apply setAddAll_distinct _ [] [] _ rfl hund
      simpa [hsnd] using hdist
    have hfst := undersOf_fst s.items pairs hp
    refine ⟨pairs.map (attachAlias ux x.src), ?_, ?_, ?_, ?_⟩
    · simp only [hstep, hadd, haddall, List.nil_append]
    · calc (pairs.map (attachAlias ux x.src)).map (fun e => (e.core, e.src))
          = pairs.map (fun p => (p.1.core, p.1.src)) := by
            simp only [List.map_map]
            exact List.map_congr_left fun p _ => by
              simp [Function.comp, attachAlias_core, attachAlias_src]
        _ = (pairs.map Prod.fst).map (fun e => (e.core, e.src)) := by
            simp [List.map_map]
        _ = s.items.map (fun e => (e.core, e.src)) := by rw [hfst]
    · calc (pairs.map (attachAlias ux x.src)).length
          = pairs.length := List.length_map _ _
        _ = (pairs.map Prod.fst).length := (List.length_map _ _).symm
        _ = s.items.length := by rw [hfst]
    · intro p hp' hpe hsrc
      refine ⟨attachAlias ux x.src p, List.mem_map_of_mem _ hp', ?_⟩
      unfold attachAlias
      rw [if_pos hpe]
      unfold make_dupe_guard
      rw [if_pos hsrc]
      simp

/-- Witness for C5 at concrete inputs: adding the literal `1` (origin 1)
to a mutable set already holding `True` (origin 0) — equal to `1` under
Python `==` and hash — appends nothing, so the length stays 1, and the
alias guard for the two differing origins is attached. -/
theorem C5_set_add_witness :
    ∃ items₂,
      setCallMethod ⟨[⟨VT.const (.bool true), some 0, []⟩], true⟩ "add"
          [⟨VT.const (.int 1), some 1, []⟩]
        = .ok ⟨⟨.const .none, Option.none, []⟩, some items₂⟩ ∧
      items₂.map (fun e => (e.core, e.src))
        = ([⟨VT.const (.bool true), some 0, []⟩] : List SElem).map (fun e => (e.core, e.src)) ∧
      items₂.length = ([⟨VT.const (.bool true), some 0, []⟩] : List SElem).length ∧
      (∀ p ∈ ([(⟨VT.const (.bool true), some 0, []⟩, SUnder.lit (.bool true))] :
          List (SElem × SUnder)),
        sunderEq p.2 (SUnder.lit (.int 1)) = true → p.1.src ≠ some 1 →
        ∃ e ∈ items₂, Guard.dupe p.1.src (some 1) ∈ e.guards) :=
  (C5_set_add ⟨[⟨VT.const (.bool true), some 0, []⟩], true⟩ ⟨VT.const (.int 1), some 1, []⟩
    [(⟨VT.const (.bool true), some 0, []⟩, SUnder.lit (.bool true))] (SUnder.lit (.int 1))
    rfl rfl rfl (by simp)).2 ⟨SUnder.lit (.bool true), by simp, rfl⟩
